import Mathlib

/-!
Shallow embedding of the RockPaperScissors rules engine (`src/src/lib.rs`).

The repository declares four submodules (`move_conditions`, `win_conditions`,
`unit`, `field`) whose source files are not present; only `lib.rs` is.  Types
and functions from those modules that `lib.rs` uses are modelled from the
spec, each marked with a doc comment starting `Modelled from the spec:`.
Everything else is translated directly from `lib.rs`.

Stateful Rust code is embedded by explicit state passing: `make_move` takes
the `Game` and returns the new `Game` together with the
`Result<Option<Outcome>, MoveError>` value.  The two `.unwrap()` calls in the
combat arms are modelled by an outer `Option`: `none` is a panic.
-/

namespace RPSGame

/-- Width of the game board (`pub const WIDTH`, non-test build). -/
def WIDTH : Nat := 8

/-- Height of the game board (`pub const HEIGHT`, non-test build). -/
def HEIGHT : Nat := 8

/-- Number of initially populated rows per side (`pub const ROWS`, non-test build). -/
def ROWS : Nat := 2

/-- The modulus of the `turns: u32` counter: 2^32.  Rust's `self.turns += 1`
wraps at `u32::MAX` in release builds, so the embedded increment is taken
modulo this constant. -/
def U32_MOD : Nat := 4294967296

/-- Rust `pub enum Player { Red, Blue }`. -/
inductive Player where
  | Red
  | Blue
deriving DecidableEq, Repr

/-- Rust `pub enum RPS { Rock, Paper, Scissors }`. -/
inductive RPS where
  | Rock
  | Paper
  | Scissors
deriving DecidableEq, Repr

/-- Rust `pub enum Outcome { Win, Lose, Draw }`. -/
inductive Outcome where
  | Win
  | Lose
  | Draw
deriving DecidableEq, Repr

/-- Rust `pub enum MoveError` — the seven rejection kinds of `make_move`. -/
inductive MoveError where
  | GameAlreadyFinished
  | DeclinedByMoveCondition
  | PositionOutOfBounds
  | WrongOwner
  | NoUnitInPosition
  | SameOwner
  | UnexpextedError
deriving DecidableEq, Repr

/-- Rust `Player::next`: Red → Blue, Blue → Red. -/
def Player.next : Player → Player
  | .Red => .Blue
  | .Blue => .Red

/-- Rust `RPS::attack` (lib.rs lines 188–194): the dominance table. -/
def RPS.attack (self opponent : RPS) : Outcome :=
  match self, opponent with
  | .Paper, .Rock => .Win
  | .Rock, .Scissors => .Win
  | .Scissors, .Paper => .Win
  | .Rock, .Paper => .Lose
  | .Scissors, .Rock => .Lose
  | .Paper, .Scissors => .Lose
  | _, _ => .Draw

/-- Modelled from the spec: `unit::GeneralUnit` (module `unit` is missing from
`src/`).  Spec §3: `Unit: {owner: Player, kind: RPS, visible: bool}`. -/
structure GeneralUnit where
  kind : RPS
  owner : Player
  visible : Bool
deriving DecidableEq, Repr

/-- Modelled from the spec: `GeneralUnit::new(rps, player)` (module `unit` is
missing).  Spec §3: "`visible` starts false". -/
def GeneralUnit.new (rps : RPS) (player : Player) : GeneralUnit :=
  { kind := rps, owner := player, visible := false }

/-- Modelled from the spec: `GeneralUnit::attack` returning
`Option<Outcome>` as matched in `make_move` (module `unit` is missing).
Spec §4.2: combat is the total `RPS` dominance function and never fails, so
the result is always `some`. -/
def GeneralUnit.attack (self defender : GeneralUnit) : Option Outcome :=
  some (self.kind.attack defender.kind)

/-- Rust `Player::unit(rps)` (lib.rs lines 171–173). -/
def Player.unit (self : Player) (rps : RPS) : GeneralUnit :=
  GeneralUnit.new rps self

/-- Rust `Player::random_unit` (lib.rs lines 175–177) calls the global RNG
(`RPS::random`).  The random draw is injected explicitly: the caller passes
the `RPS` value this call of `RPS::random` produced. -/
def Player.random_unit (self : Player) (drawn : RPS) : GeneralUnit :=
  self.unit drawn

/-- Modelled from the spec: `field::Field` (module `field` is missing).
`lib.rs` accesses it only through `field.rows[y][x]`, a `WIDTH × HEIGHT`
grid of `Option<GeneralUnit>`; embedded as a function of the row and column
indices (cells outside the bounds are never read by `make_move`, which
bounds-checks first). -/
def Field : Type := Nat → Nat → Option GeneralUnit

/-- Write one cell of the grid: `field.rows[y][x] = v`. -/
def Field.set (f : Field) (y x : Nat) (v : Option GeneralUnit) : Field :=
  fun y0 x0 => if y0 = y ∧ x0 = x then v else f y0 x0

/-- Write a whole row with one copied value:
`rows[i] = [v; WIDTH]` (lib.rs lines 50–51). -/
def Field.setRow (f : Field) (y : Nat) (v : Option GeneralUnit) : Field :=
  fun y0 x0 => if y0 = y then v else f y0 x0

/-- Modelled from the spec: `move_conditions::Move` (module is missing).
`lib.rs` reads `movement.from` (a `(usize, usize)` origin) and calls
`movement.apply(owner)`; the direction payload is only inspected by those
missing-module functions, which are abstracted in `Rules` below. -/
structure Move where
  fromPos : Nat × Nat

/-- Modelled from the spec: the `Rules` bundle specialised to functions.
`move_condition` is the `MoveCondition::is_valid` strategy (spec §4.3, a pure
predicate over move descriptors), `win_condition` the
`WinCondition::winner` strategy (spec §4.4), and `apply_move` the missing
`Move::apply(owner)` method (spec §4.3: the destination of the descriptor,
oriented for the acting player).  `Game` is generic over the strategies in
the source, so theorems quantify over any `Rules`. -/
structure Rules where
  move_condition : Move → Bool
  win_condition : Field → Option Player
  apply_move : Move → Player → Nat × Nat

/-- Rust `pub struct Game` (lib.rs lines 38–44): the mutable state.  The immutable
`rules` member is passed separately to `make_move` instead of being stored.
`turns` is the `u32` counter embedded as its `Nat` value; the increment in
`finishMove` wraps modulo `U32_MOD`, matching release-build `u32` addition. -/
structure Game where
  turns : Nat
  current_turn : Player
  winner : Option Player
  field : Field

/-- The seeding loop of `Game::new` (lib.rs lines 48–52):
`for i in 0..n { rows[i] = [Some(RED.random_unit()); WIDTH];
rows[HEIGHT-i-1] = [Some(BLUE.random_unit()); WIDTH]; }` starting from the
all-`None` board.  `draw k` is the value of the k-th call of `RPS::random`,
in execution order (red row i draws index `2*i`, blue row i index `2*i+1`). -/
def seedLoop (draw : Nat → RPS) : Nat → Field
  | 0 => fun _ _ => none
  | i + 1 =>
    ((seedLoop draw i).setRow i (some (Player.Red.random_unit (draw (2 * i))))).setRow
      (HEIGHT - i - 1) (some (Player.Blue.random_unit (draw (2 * i + 1))))

/-- Rust `Game::new(rules)` (lib.rs lines 47–61), with the RNG injected as `draw`. -/
def Game.new (draw : Nat → RPS) : Game :=
  { turns := 1
    current_turn := .Red
    winner := none
    field := seedLoop draw ROWS }

/-- Rust `Game::force_win(player)` (lib.rs lines 68–70). -/
def Game.force_win (g : Game) (player : Player) : Game :=
  if !g.winner.isSome then { g with winner := some player } else g

/-- The common tail of every accepted move (lib.rs lines 137–139): recompute
the winner from the post-move field, increment `turns` (a wrapping `u32`
add), advance the turn. -/
def Game.finishMove (rules : Rules) (g : Game) (f : Field) : Game :=
  { turns := (g.turns + 1) % U32_MOD
    current_turn := g.current_turn.next
    winner := rules.win_condition f
    field := f }

/-- Rust `Game::make_move(movement)` (lib.rs lines 76–142).  Returns `none` when
the Rust code would panic (the `.unwrap()` calls in the Win/Lose/Draw arms),
otherwise `some` of the new state and the `Result` value. -/
def Game.make_move (rules : Rules) (g : Game) (movement : Move) :
    Option (Game × Except MoveError (Option Outcome)) :=
  if g.winner.isSome then some (g, .error .GameAlreadyFinished)
  else if !rules.move_condition movement then some (g, .error .DeclinedByMoveCondition)
  else
    let from_x := movement.fromPos.1
    let from_y := movement.fromPos.2
    if WIDTH ≤ from_x ∨ HEIGHT ≤ from_y then some (g, .error .PositionOutOfBounds)
    else
      match g.field from_y from_x with
      | none => some (g, .error .NoUnitInPosition)
      | some u =>
        if u.owner ≠ g.current_turn then some (g, .error .WrongOwner)
        else
          let to_x := (rules.apply_move movement u.owner).1
          let to_y := (rules.apply_move movement u.owner).2
          if WIDTH ≤ to_x ∨ HEIGHT ≤ to_y then some (g, .error .PositionOutOfBounds)
          else
            match g.field to_y to_x with
            | some defender =>
              if defender.owner = g.current_turn then some (g, .error .SameOwner)
              else
                match u.attack defender with
                | none => some (g, .error .UnexpextedError)
                | some res =>
                  match res with
                  | .Win =>
                    let f1 := (g.field.set to_y to_x (g.field from_y from_x)).set
                      from_y from_x none
                    match f1 to_y to_x with
                    | none => none
                    | some m =>
                      some (g.finishMove rules (f1.set to_y to_x (some { m with visible := true })),
                        .ok (some res))
                  | .Lose =>
                    let f1 := g.field.set from_y from_x none
                    match f1 to_y to_x with
                    | none => none
                    | some m =>
                      some (g.finishMove rules (f1.set to_y to_x (some { m with visible := true })),
                        .ok (some res))
                  | .Draw =>
                    match g.field from_y from_x with
                    | none => none
                    | some a =>
                      let f1 := g.field.set from_y from_x (some { a with visible := true })
                      match f1 to_y to_x with
                      | none => none
                      | some b =>
                        some (g.finishMove rules (f1.set to_y to_x (some { b with visible := true })),
                          .ok (some res))
            | none =>
              let f1 := (g.field.set to_y to_x (g.field from_y from_x)).set from_y from_x none
              some (g.finishMove rules f1, .ok none)

/-- Specification predicate for visibility monotonicity: every occupied cell
of `f1` is an occupied cell of `f0` with at most the `visible` flag raised. -/
def Traces (f0 f1 : Field) : Prop :=
  ∀ y x u', f1 y x = some u' →
    ∃ y0 x0 u, f0 y0 x0 = some u ∧ (u' = u ∨ u' = { u with visible := true }) ∧
      (u.visible = true → u'.visible = true)

/-! ## Concrete fixtures used by the witness theorems -/

/-- A simple strategy bundle: every move shape is legal, the destination is
one row forward oriented for the acting player, nobody ever wins. -/
def rulesW : Rules :=
  { move_condition := fun _ => true
    win_condition := fun _ => none
    apply_move := fun m p =>
      match p with
      | .Red => (m.fromPos.1, m.fromPos.2 + 1)
      | .Blue => (m.fromPos.1, m.fromPos.2 - 1) }

def uRedRock : GeneralUnit := { kind := .Rock, owner := .Red, visible := false }

def uBlueScissors : GeneralUnit := { kind := .Scissors, owner := .Blue, visible := false }

def uRedPaper : GeneralUnit := { kind := .Paper, owner := .Red, visible := false }

/-- A finished game on an empty board. -/
def gFinished : Game :=
  { turns := 5, current_turn := .Blue, winner := some .Red, field := fun _ _ => none }

/-- An in-progress game: a red rock at (x,y) = (0,0), otherwise empty. -/
def gRelocate : Game :=
  { turns := 1, current_turn := .Red, winner := none
    field := fun y x => if y = 0 ∧ x = 0 then some uRedRock else none }

/-- An in-progress game: a red rock at (0,0) and a blue scissors at (0,1). -/
def gCombat : Game :=
  { turns := 1, current_turn := .Red, winner := none
    field := fun y x =>
      if y = 0 ∧ x = 0 then some uRedRock
      else if y = 1 ∧ x = 0 then some uBlueScissors
      else none }

/-- An in-progress game: a red rock at (0,0) and a red paper at (0,1). -/
def gSame : Game :=
  { turns := 1, current_turn := .Red, winner := none
    field := fun y x =>
      if y = 0 ∧ x = 0 then some uRedRock
      else if y = 1 ∧ x = 0 then some uRedPaper
      else none }

def mOrigin : Move := { fromPos := (0, 0) }

/-- An in-progress game whose `u32` turn counter sits at `u32::MAX`, one
accepted move away from wrapping: a red rock at (0,0), otherwise empty. -/
def gWrap : Game :=
  { turns := 4294967295, current_turn := .Red, winner := none
    field := fun y x => if y = 0 ∧ x = 0 then some uRedRock else none }

/-! ## Helper lemmas -/

theorem Player.next_ne (p : Player) : p.next ≠ p := by cases p <;> decide

theorem Field.set_self (f : Field) (y x : Nat) (v : Option GeneralUnit) :
    f.set y x v y x = v := by
  simp [Field.set]

theorem Field.set_ne (f : Field) (y x : Nat) (v : Option GeneralUnit)
    (y0 x0 : Nat) (h : ¬(y0 = y ∧ x0 = x)) : f.set y x v y0 x0 = f y0 x0 := by
  simp [Field.set, h]

/-! ## Claim theorems -/

/-- C6: `RPS::attack` realises cyclic dominance over all nine ordered pairs:
Rock beats Scissors, Scissors beats Paper, Paper beats Rock; the converse
pairs lose; same kinds draw; and `attack a b = Win ↔ attack b a = Lose`. -/
theorem attack_cyclic_dominance :
    (RPS.attack .Rock .Scissors = .Win ∧ RPS.attack .Scissors .Paper = .Win ∧
      RPS.attack .Paper .Rock = .Win) ∧
    (RPS.attack .Scissors .Rock = .Lose ∧ RPS.attack .Paper .Scissors = .Lose ∧
      RPS.attack .Rock .Paper = .Lose) ∧
    (∀ a, RPS.attack a a = .Draw) ∧
    (∀ a b, RPS.attack a b = .Win ↔ RPS.attack b a = .Lose) := by
  refine ⟨by decide, by decide, ?_, ?_⟩
  · intro a
    cases a <;> decide
  · intro a b
    cases a <;> cases b <;> decide

/-- C6 witness: the table sampled at concrete pairs through the theorem. -/
theorem attack_cyclic_dominance_witness :
    RPS.attack .Rock .Scissors = .Win ∧ RPS.attack .Paper .Paper = .Draw ∧
    (RPS.attack .Rock .Scissors = .Win ↔ RPS.attack .Scissors .Rock = .Lose) :=
  ⟨attack_cyclic_dominance.1.1, attack_cyclic_dominance.2.2.1 .Paper,
    attack_cyclic_dominance.2.2.2 .Rock .Scissors⟩

/-- C1: whenever `make_move` returns an error — any of the seven kinds — the
returned game state is exactly the input state: no field of `Game` mutates. -/
theorem rejected_move_no_mutation (rules : Rules) (g : Game) (m : Move)
    (g' : Game) (e : MoveError)
    (h : Game.make_move rules g m = some (g', .error e)) : g' = g := by
  unfold Game.make_move at h
  simp only [] at h
  repeat' split at h
  all_goals simp_all

/-- C1 witness: a concrete rejected move (finished game) leaves the state
unchanged. -/
theorem rejected_move_no_mutation_witness :
    Game.make_move rulesW gFinished mOrigin =
      some (gFinished, .error .GameAlreadyFinished) ∧ gFinished = gFinished :=
  ⟨rfl, rejected_move_no_mutation rulesW gFinished mOrigin gFinished
    .GameAlreadyFinished rfl⟩

/-- C2: once a winner is set, `make_move` always returns
`GameAlreadyFinished` leaving the state untouched, and `force_win` is a
no-op; `force_win` sets the winner exactly when none is set. -/
theorem winner_terminal (rules : Rules) (g : Game) (m : Move) (p : Player)
    (hp : g.winner = some p) :
    Game.make_move rules g m = some (g, .error .GameAlreadyFinished) ∧
    (∀ q, g.force_win q = g) ∧
    (∀ g0 : Game, ∀ q, g0.winner = none →
      g0.force_win q = { g0 with winner := some q }) := by
  refine ⟨?_, ?_, ?_⟩
  · unfold Game.make_move
    rw [hp]
    rfl
  · intro q
    unfold Game.force_win
    rw [hp]
    rfl
  · intro g0 q h0
    unfold Game.force_win
    rw [h0]
    rfl

/-- C2 witness: instantiated at a concrete finished game. -/
theorem winner_terminal_witness :
    gFinished.winner = some .Red ∧
    (Game.make_move rulesW gFinished mOrigin =
        some (gFinished, .error .GameAlreadyFinished) ∧
      (∀ q, gFinished.force_win q = gFinished) ∧
      (∀ g0 : Game, ∀ q, g0.winner = none →
        g0.force_win q = { g0 with winner := some q })) :=
  ⟨rfl, winner_terminal rulesW gFinished mOrigin .Red rfl⟩

/-- C3 counterexample to the unqualified claim: with the `u32` counter at
`u32::MAX = 4294967295`, an accepted move wraps `turns` to 0, which is not
`turns + 1`. -/
theorem turn_progression_counterexample :
    (Game.make_move rulesW gWrap mOrigin).map (fun p => (p.1.turns, p.2)) =
      some (0, Except.ok none) ∧
    gWrap.turns + 1 = 4294967296 ∧ (0 : Nat) ≠ 4294967296 :=
  ⟨rfl, rfl, by decide⟩

/-- C3 (amended for the `u32` wrap): an accepted move increments `turns` by
exactly 1 modulo 2^32 — exactly 1 whenever the counter does not sit at
`u32::MAX` — and toggles `current_turn` exactly once (Red→Blue, Blue→Red);
a rejected move changes neither. -/
theorem turn_progression (rules : Rules) (g : Game) (m : Move)
    (g' : Game) (r : Except MoveError (Option Outcome))
    (h : Game.make_move rules g m = some (g', r)) :
    (∀ res, r = .ok res →
      g'.turns = (g.turns + 1) % U32_MOD ∧
      (g.turns + 1 < U32_MOD → g'.turns = g.turns + 1) ∧
      g'.current_turn = g.current_turn.next ∧
      g'.current_turn ≠ g.current_turn ∧
      (g.current_turn = .Red → g'.current_turn = .Blue) ∧
      (g.current_turn = .Blue → g'.current_turn = .Red)) ∧
    (∀ e, r = .error e → g'.turns = g.turns ∧ g'.current_turn = g.current_turn) := by
  unfold Game.make_move at h
  simp only [] at h
  repeat' split at h
  all_goals
    first
    | exact Option.noConfusion h
    | (simp only [Option.some.injEq, Prod.mk.injEq] at h
       obtain ⟨h1, h2⟩ := h
       subst h1
       subst h2
       refine ⟨?_, ?_⟩
       · intro res hres
         first
         | exact Except.noConfusion hres
         | exact ⟨rfl, fun hlt => Nat.mod_eq_of_lt hlt, rfl, Player.next_ne _,
             fun hc => by simp [Game.finishMove, hc, Player.next],
             fun hc => by simp [Game.finishMove, hc, Player.next]⟩
       · intro e he
         first
         | exact Except.noConfusion he
         | exact ⟨rfl, rfl⟩)

/-- C3 witness: a concrete accepted relocation move. -/
theorem turn_progression_witness :
    (∃ g' r, Game.make_move rulesW gRelocate mOrigin = some (g', r) ∧
      (∀ res, r = .ok res →
        g'.turns = (gRelocate.turns + 1) % U32_MOD ∧
        (gRelocate.turns + 1 < U32_MOD → g'.turns = gRelocate.turns + 1) ∧
        g'.current_turn = gRelocate.current_turn.next ∧
        g'.current_turn ≠ gRelocate.current_turn ∧
        (gRelocate.current_turn = .Red → g'.current_turn = .Blue) ∧
        (gRelocate.current_turn = .Blue → g'.current_turn = .Red)) ∧
      (∀ e, r = .error e →
        g'.turns = gRelocate.turns ∧ g'.current_turn = gRelocate.current_turn)) :=
  ⟨_, _, rfl, turn_progression rulesW gRelocate mOrigin _ _ rfl⟩

/-- In the combat branch the destination cell cannot be the origin cell: the
origin holds the acting player's unit, the destination an opposing one. -/
theorem dest_ne_origin {g : Game} {fy fx ty tx : Nat} {u defender : GeneralUnit}
    (hu : g.field fy fx = some u) (hdef : g.field ty tx = some defender)
    (how : u.owner = g.current_turn) (hsame : ¬defender.owner = g.current_turn) :
    ¬(ty = fy ∧ tx = fx) := by
  rintro ⟨rfl, rfl⟩
  rw [hu] at hdef
  obtain rfl := Option.some.inj hdef
  exact hsame how

/-- C9: `make_move` is total — it never hits the panic branches (`none` in
this embedding, the `.unwrap()` calls of the Win/Lose/Draw arms): every
failure is a typed `MoveError` inside the returned value. -/
theorem make_move_no_panic (rules : Rules) (g : Game) (mv : Move) :
    (Game.make_move rules g mv).isSome = true := by
  cases hmm : Game.make_move rules g mv with
  | some _ => rfl
  | none =>
    exfalso
    unfold Game.make_move at hmm
    simp only [] at hmm
    split at hmm
    · exact Option.noConfusion hmm
    split at hmm
    · exact Option.noConfusion hmm
    split at hmm
    · exact Option.noConfusion hmm
    split at hmm
    · exact Option.noConfusion hmm
    rename_i u hu
    split at hmm
    · exact Option.noConfusion hmm
    rename_i howner
    split at hmm
    · exact Option.noConfusion hmm
    split at hmm
    case _ defender hdef =>
      split at hmm
      · exact Option.noConfusion hmm
      rename_i hsame
      split at hmm
      · exact Option.noConfusion hmm
      rename_i res hres
      have hne := dest_ne_origin hu hdef (not_not.mp howner) hsame
      split at hmm
      · -- Win arm
        split at hmm
        · rename_i hpan
          rw [Field.set_ne _ _ _ _ _ _ hne, Field.set_self, hu] at hpan
          exact Option.noConfusion hpan
        · exact Option.noConfusion hmm
      · -- Lose arm
        split at hmm
        · rename_i hpan
          rw [Field.set_ne _ _ _ _ _ _ hne, hdef] at hpan
          exact Option.noConfusion hpan
        · exact Option.noConfusion hmm
      · -- Draw arm
        split at hmm
        · -- re-read of the origin cell
          rename_i hpan
          exact Option.noConfusion hpan
        · rename_i a ha
          split at hmm
          · rename_i hpan
            rw [Field.set_ne _ _ _ _ _ _ hne, hdef] at hpan
            exact Option.noConfusion hpan
          · exact Option.noConfusion hmm
    case _ =>
      exact Option.noConfusion hmm

theorem Traces.base (f : Field) : Traces f f :=
  fun y x u' hc => ⟨y, x, u', hc, Or.inl (Eq.refl u'), fun hv => hv⟩

theorem Traces.of_eq {g g' : Game} (h : g = g') : Traces g.field g'.field :=
  h ▸ Traces.base g.field

theorem Traces.set_none {f0 f1 : Field} (h : Traces f0 f1) (y x : Nat) :
    Traces f0 (f1.set y x none) := by
  intro y1 x1 u' hc
  simp only [Field.set] at hc
  split at hc
  · exact Option.noConfusion hc
  · exact h _ _ _ hc

theorem Traces.set_cell {f0 f1 : Field} (h : Traces f0 f1) {y0 x0 : Nat}
    {u : GeneralUnit} (hc0 : f0 y0 x0 = some u) (y x : Nat) :
    Traces f0 (f1.set y x (some u)) := by
  intro y1 x1 u' hc
  simp only [Field.set] at hc
  split at hc
  · obtain rfl := Option.some.inj hc
    exact ⟨y0, x0, u, hc0, Or.inl (Eq.refl u), fun hv => hv⟩
  · exact h _ _ _ hc

theorem Traces.set_copy {f0 f1 : Field} (h : Traces f0 f1) (y0 x0 y x : Nat) :
    Traces f0 (f1.set y x (f0 y0 x0)) := by
  intro y1 x1 u' hc
  simp only [Field.set] at hc
  split at hc
  · exact ⟨y0, x0, u', hc, Or.inl (Eq.refl u'), fun hv => hv⟩
  · exact h _ _ _ hc

theorem Traces.set_raise {f0 f1 : Field} (h : Traces f0 f1) {y1 x1 : Nat}
    {m : GeneralUnit} (hm : f1 y1 x1 = some m) (y x : Nat) :
    Traces f0 (f1.set y x (some { m with visible := true })) := by
  intro y2 x2 u' hc
  simp only [Field.set] at hc
  split at hc
  · obtain rfl := Option.some.inj hc
    obtain ⟨y0, x0, u, hc0, hd, _⟩ := h _ _ _ hm
    refine ⟨y0, x0, u, hc0, Or.inr ?_, fun _ => rfl⟩
    cases hd with
    | inl he => rw [he]
    | inr he => rw [he]
  · exact h _ _ _ hc

/-- C7: visibility is monotonic across `make_move`: every unit present after
the call is a unit that was present before it (at the same or the origin
cell), with its `visible` flag either unchanged or raised to true — never
lowered from true to false. -/
theorem visibility_monotone (rules : Rules) (g : Game) (mv : Move)
    (g' : Game) (r : Except MoveError (Option Outcome))
    (h : Game.make_move rules g mv = some (g', r)) :
    ∀ y x u', g'.field y x = some u' →
      ∃ y0 x0 u, g.field y0 x0 = some u ∧
        (u' = u ∨ u' = { u with visible := true }) ∧
        (u.visible = true → u'.visible = true) := by
  show Traces g.field g'.field
  unfold Game.make_move at h
  simp only [] at h
  split at h
  · exact Traces.of_eq (congrArg Prod.fst (Option.some.inj h))
  split at h
  · exact Traces.of_eq (congrArg Prod.fst (Option.some.inj h))
  split at h
  · exact Traces.of_eq (congrArg Prod.fst (Option.some.inj h))
  split at h
  · exact Traces.of_eq (congrArg Prod.fst (Option.some.inj h))
  rename_i u hu
  split at h
  · exact Traces.of_eq (congrArg Prod.fst (Option.some.inj h))
  split at h
  · exact Traces.of_eq (congrArg Prod.fst (Option.some.inj h))
  split at h
  case _ defender hdef =>
    split at h
    · exact Traces.of_eq (congrArg Prod.fst (Option.some.inj h))
    split at h
    · exact Traces.of_eq (congrArg Prod.fst (Option.some.inj h))
    rename_i res hres
    split at h
    · -- Win arm
      split at h
      · exact Option.noConfusion h
      rename_i m hm
      obtain rfl := congrArg Prod.fst (Option.some.inj h)
      exact (((Traces.base g.field).set_copy _ _ _ _).set_none _ _).set_raise hm _ _
    · -- Lose arm
      split at h
      · exact Option.noConfusion h
      rename_i m hm
      obtain rfl := congrArg Prod.fst (Option.some.inj h)
      exact ((Traces.base g.field).set_none _ _).set_raise hm _ _
    · -- Draw arm
      split at h
      · exact Option.noConfusion h
      rename_i a ha
      split at h
      · exact Option.noConfusion h
      rename_i b hb
      obtain rfl := congrArg Prod.fst (Option.some.inj h)
      have ha2 : g.field mv.fromPos.2 mv.fromPos.1 = some a := by
        first
        | exact ha
        | exact hu.trans ha
      exact ((Traces.base g.field).set_raise ha2 _ _).set_raise hb _ _
  case _ hdn =>
    obtain rfl := congrArg Prod.fst (Option.some.inj h)
    exact ((Traces.base g.field).set_copy _ _ _ _).set_none _ _

/-- C7 witness: a concrete accepted move (a relocation), traced. -/
theorem visibility_monotone_witness :
    (∃ g' r, Game.make_move rulesW gRelocate mOrigin = some (g', r) ∧
      ∀ y x u', g'.field y x = some u' →
        ∃ y0 x0 u, gRelocate.field y0 x0 = some u ∧
          (u' = u ∨ u' = { u with visible := true }) ∧
          (u.visible = true → u'.visible = true)) :=
  ⟨_, _, rfl, visibility_monotone rulesW gRelocate mOrigin _ _ rfl⟩

/-! ## Evaluation lemmas for moves that pass all pre-checks -/

theorem make_move_dest_empty (rules : Rules) (g : Game) (mv : Move)
    (u : GeneralUnit) (fx fy tx ty : Nat)
    (hw : g.winner = none) (hv : rules.move_condition mv = true)
    (hf1 : mv.fromPos.1 = fx) (hf2 : mv.fromPos.2 = fy)
    (hfb : ¬(WIDTH ≤ fx ∨ HEIGHT ≤ fy))
    (hu : g.field fy fx = some u)
    (how : u.owner = g.current_turn)
    (ht1 : (rules.apply_move mv u.owner).1 = tx)
    (ht2 : (rules.apply_move mv u.owner).2 = ty)
    (htb : ¬(WIDTH ≤ tx ∨ HEIGHT ≤ ty))
    (hd : g.field ty tx = none) :
    Game.make_move rules g mv =
      some (g.finishMove rules ((g.field.set ty tx (some u)).set fy fx none), .ok none) := by
  unfold Game.make_move
  rw [hw]
  simp only [Option.isSome_none, Bool.false_eq_true, if_false, hv, Bool.not_true,
    hf1, hf2, if_neg hfb, hu, if_neg (not_not_intro how), ht1, ht2, if_neg htb, hd]

theorem make_move_same_owner (rules : Rules) (g : Game) (mv : Move)
    (u d : GeneralUnit) (fx fy tx ty : Nat)
    (hw : g.winner = none) (hv : rules.move_condition mv = true)
    (hf1 : mv.fromPos.1 = fx) (hf2 : mv.fromPos.2 = fy)
    (hfb : ¬(WIDTH ≤ fx ∨ HEIGHT ≤ fy))
    (hu : g.field fy fx = some u)
    (how : u.owner = g.current_turn)
    (ht1 : (rules.apply_move mv u.owner).1 = tx)
    (ht2 : (rules.apply_move mv u.owner).2 = ty)
    (htb : ¬(WIDTH ≤ tx ∨ HEIGHT ≤ ty))
    (hd : g.field ty tx = some d)
    (hdo : d.owner = g.current_turn) :
    Game.make_move rules g mv = some (g, .error .SameOwner) := by
  unfold Game.make_move
  rw [hw]
  simp only [Option.isSome_none, Bool.false_eq_true, if_false, hv, Bool.not_true,
    hf1, hf2, if_neg hfb, hu, if_neg (not_not_intro how), ht1, ht2, if_neg htb, hd,
    if_pos hdo]

theorem make_move_combat_win (rules : Rules) (g : Game) (mv : Move)
    (u d : GeneralUnit) (fx fy tx ty : Nat)
    (hw : g.winner = none) (hv : rules.move_condition mv = true)
    (hf1 : mv.fromPos.1 = fx) (hf2 : mv.fromPos.2 = fy)
    (hfb : ¬(WIDTH ≤ fx ∨ HEIGHT ≤ fy))
    (hu : g.field fy fx = some u)
    (how : u.owner = g.current_turn)
    (ht1 : (rules.apply_move mv u.owner).1 = tx)
    (ht2 : (rules.apply_move mv u.owner).2 = ty)
    (htb : ¬(WIDTH ≤ tx ∨ HEIGHT ≤ ty))
    (hd : g.field ty tx = some d)
    (hdo : ¬d.owner = g.current_turn)
    (hatk : u.kind.attack d.kind = .Win) :
    Game.make_move rules g mv =
      some (g.finishMove rules
          (((g.field.set ty tx (some u)).set fy fx none).set ty tx
            (some { u with visible := true })),
        .ok (some .Win)) := by
  have hne := dest_ne_origin hu hd how hdo
  have hs1 : ((g.field.set ty tx (some u)).set fy fx none) ty tx = some u := by
    rw [Field.set_ne _ _ _ _ _ _ hne, Field.set_self]
  unfold Game.make_move
  rw [hw]
  simp only [Option.isSome_none, Bool.false_eq_true, if_false, hv, Bool.not_true,
    hf1, hf2, if_neg hfb, hu, if_neg (not_not_intro how), ht1, ht2, if_neg htb, hd,
    if_neg hdo, GeneralUnit.attack, hatk, hs1]

theorem make_move_combat_lose (rules : Rules) (g : Game) (mv : Move)
    (u d : GeneralUnit) (fx fy tx ty : Nat)
    (hw : g.winner = none) (hv : rules.move_condition mv = true)
    (hf1 : mv.fromPos.1 = fx) (hf2 : mv.fromPos.2 = fy)
    (hfb : ¬(WIDTH ≤ fx ∨ HEIGHT ≤ fy))
    (hu : g.field fy fx = some u)
    (how : u.owner = g.current_turn)
    (ht1 : (rules.apply_move mv u.owner).1 = tx)
    (ht2 : (rules.apply_move mv u.owner).2 = ty)
    (htb : ¬(WIDTH ≤ tx ∨ HEIGHT ≤ ty))
    (hd : g.field ty tx = some d)
    (hdo : ¬d.owner = g.current_turn)
    (hatk : u.kind.attack d.kind = .Lose) :
    Game.make_move rules g mv =
      some (g.finishMove rules
          ((g.field.set fy fx none).set ty tx (some { d with visible := true })),
        .ok (some .Lose)) := by
  have hne := dest_ne_origin hu hd how hdo
  have hs2 : (g.field.set fy fx none) ty tx = some d := by
    rw [Field.set_ne _ _ _ _ _ _ hne, hd]
  unfold Game.make_move
  rw [hw]
  simp only [Option.isSome_none, Bool.false_eq_true, if_false, hv, Bool.not_true,
    hf1, hf2, if_neg hfb, hu, if_neg (not_not_intro how), ht1, ht2, if_neg htb, hd,
    if_neg hdo, GeneralUnit.attack, hatk, hs2]

theorem make_move_combat_draw (rules : Rules) (g : Game) (mv : Move)
    (u d : GeneralUnit) (fx fy tx ty : Nat)
    (hw : g.winner = none) (hv : rules.move_condition mv = true)
    (hf1 : mv.fromPos.1 = fx) (hf2 : mv.fromPos.2 = fy)
    (hfb : ¬(WIDTH ≤ fx ∨ HEIGHT ≤ fy))
    (hu : g.field fy fx = some u)
    (how : u.owner = g.current_turn)
    (ht1 : (rules.apply_move mv u.owner).1 = tx)
    (ht2 : (rules.apply_move mv u.owner).2 = ty)
    (htb : ¬(WIDTH ≤ tx ∨ HEIGHT ≤ ty))
    (hd : g.field ty tx = some d)
    (hdo : ¬d.owner = g.current_turn)
    (hatk : u.kind.attack d.kind = .Draw) :
    Game.make_move rules g mv =
      some (g.finishMove rules
          ((g.field.set fy fx (some { u with visible := true })).set ty tx
            (some { d with visible := true })),
        .ok (some .Draw)) := by
  have hne := dest_ne_origin hu hd how hdo
  have hs3 : (g.field.set fy fx (some { u with visible := true })) ty tx = some d := by
    rw [Field.set_ne _ _ _ _ _ _ hne, hd]
  unfold Game.make_move
  rw [hw]
  simp only [Option.isSome_none, Bool.false_eq_true, if_false, hv, Bool.not_true,
    hf1, hf2, if_neg hfb, hu, if_neg (not_not_intro how), ht1, ht2, if_neg htb, hd,
    if_neg hdo, GeneralUnit.attack, hatk, hs3]

/-- C4: for a move that passes the finished-game, shape, bounds, occupancy
and ownership checks: an empty destination gives a plain relocation with
result `Ok(None)` and no other cell touched; a friendly destination is
rejected with `SameOwner`; an opposing destination gives `Ok(Some(outcome))`
with `outcome` the combat result of the two units. -/
theorem move_destination_cases (rules : Rules) (g : Game) (mv : Move)
    (u : GeneralUnit) (fx fy tx ty : Nat)
    (hw : g.winner = none) (hv : rules.move_condition mv = true)
    (hf1 : mv.fromPos.1 = fx) (hf2 : mv.fromPos.2 = fy)
    (hfb : ¬(WIDTH ≤ fx ∨ HEIGHT ≤ fy))
    (hu : g.field fy fx = some u)
    (how : u.owner = g.current_turn)
    (ht1 : (rules.apply_move mv u.owner).1 = tx)
    (ht2 : (rules.apply_move mv u.owner).2 = ty)
    (htb : ¬(WIDTH ≤ tx ∨ HEIGHT ≤ ty)) :
    (g.field ty tx = none →
      ∃ g', Game.make_move rules g mv = some (g', .ok none) ∧
        g'.field ty tx = some u ∧ g'.field fy fx = none ∧
        (∀ y x, ¬(y = ty ∧ x = tx) → ¬(y = fy ∧ x = fx) →
          g'.field y x = g.field y x)) ∧
    (∀ d, g.field ty tx = some d → d.owner = g.current_turn →
      Game.make_move rules g mv = some (g, .error .SameOwner)) ∧
    (∀ d, g.field ty tx = some d → ¬d.owner = g.current_turn →
      ∃ g' out, Game.make_move rules g mv = some (g', .ok (some out)) ∧
        u.attack d = some out) := by
  refine ⟨?_, ?_, ?_⟩
  · intro hd
    have hne : ¬(ty = fy ∧ tx = fx) := by
      rintro ⟨rfl, rfl⟩
      rw [hu] at hd
      exact Option.noConfusion hd
    refine ⟨_, make_move_dest_empty rules g mv u fx fy tx ty
      hw hv hf1 hf2 hfb hu how ht1 ht2 htb hd, ?_, ?_, ?_⟩
    · show ((g.field.set ty tx (some u)).set fy fx none) ty tx = some u
      rw [Field.set_ne _ _ _ _ _ _ hne, Field.set_self]
    · show ((g.field.set ty tx (some u)).set fy fx none) fy fx = none
      rw [Field.set_self]
    · intro y x h1 h2
      show ((g.field.set ty tx (some u)).set fy fx none) y x = g.field y x
      rw [Field.set_ne _ _ _ _ _ _ h2, Field.set_ne _ _ _ _ _ _ h1]
  · intro d hd hdo
    exact make_move_same_owner rules g mv u d fx fy tx ty
      hw hv hf1 hf2 hfb hu how ht1 ht2 htb hd hdo
  · intro d hd hdo
    cases hatk : u.kind.attack d.kind with
    | Win =>
      exact ⟨_, .Win, make_move_combat_win rules g mv u d fx fy tx ty
        hw hv hf1 hf2 hfb hu how ht1 ht2 htb hd hdo hatk,
        by rw [GeneralUnit.attack, hatk]⟩
    | Lose =>
      exact ⟨_, .Lose, make_move_combat_lose rules g mv u d fx fy tx ty
        hw hv hf1 hf2 hfb hu how ht1 ht2 htb hd hdo hatk,
        by rw [GeneralUnit.attack, hatk]⟩
    | Draw =>
      exact ⟨_, .Draw, make_move_combat_draw rules g mv u d fx fy tx ty
        hw hv hf1 hf2 hfb hu how ht1 ht2 htb hd hdo hatk,
        by rw [GeneralUnit.attack, hatk]⟩

/-- C4 witness: the red rock at (0,0) of `gRelocate` moves forward into the
empty cell (0,1). -/
theorem move_destination_cases_witness :
    ∃ g', Game.make_move rulesW gRelocate mOrigin = some (g', .ok none) ∧
      g'.field 1 0 = some uRedRock ∧ g'.field 0 0 = none ∧
      (∀ y x, ¬(y = 1 ∧ x = 0) → ¬(y = 0 ∧ x = 0) →
        g'.field y x = gRelocate.field y x) :=
  (move_destination_cases rulesW gRelocate mOrigin uRedRock 0 0 0 1
    rfl rfl rfl rfl (by decide) rfl rfl rfl rfl (by decide)).1 rfl

/-- C5: for an accepted combat move the board mutation matches the outcome:
on Win the attacker (made visible) replaces the defender and the origin is
cleared; on Lose the attacker is removed and the defender stays, made
visible; on Draw both stay in place and both become visible.  No other cell
changes. -/
theorem combat_board_mutation (rules : Rules) (g : Game) (mv : Move)
    (u d : GeneralUnit) (fx fy tx ty : Nat)
    (hw : g.winner = none) (hv : rules.move_condition mv = true)
    (hf1 : mv.fromPos.1 = fx) (hf2 : mv.fromPos.2 = fy)
    (hfb : ¬(WIDTH ≤ fx ∨ HEIGHT ≤ fy))
    (hu : g.field fy fx = some u)
    (how : u.owner = g.current_turn)
    (ht1 : (rules.apply_move mv u.owner).1 = tx)
    (ht2 : (rules.apply_move mv u.owner).2 = ty)
    (htb : ¬(WIDTH ≤ tx ∨ HEIGHT ≤ ty))
    (hd : g.field ty tx = some d)
    (hdo : ¬d.owner = g.current_turn) :
    (u.attack d = some .Win →
      ∃ g', Game.make_move rules g mv = some (g', .ok (some .Win)) ∧
        g'.field ty tx = some { u with visible := true } ∧
        g'.field fy fx = none ∧
        (∀ y x, ¬(y = ty ∧ x = tx) → ¬(y = fy ∧ x = fx) →
          g'.field y x = g.field y x)) ∧
    (u.attack d = some .Lose →
      ∃ g', Game.make_move rules g mv = some (g', .ok (some .Lose)) ∧
        g'.field fy fx = none ∧
        g'.field ty tx = some { d with visible := true } ∧
        (∀ y x, ¬(y = ty ∧ x = tx) → ¬(y = fy ∧ x = fx) →
          g'.field y x = g.field y x)) ∧
    (u.attack d = some .Draw →
      ∃ g', Game.make_move rules g mv = some (g', .ok (some .Draw)) ∧
        g'.field fy fx = some { u with visible := true } ∧
        g'.field ty tx = some { d with visible := true } ∧
        (∀ y x, ¬(y = ty ∧ x = tx) → ¬(y = fy ∧ x = fx) →
          g'.field y x = g.field y x)) := by
  have hne := dest_ne_origin hu hd how hdo
  have hne' : ¬(fy = ty ∧ fx = tx) := fun hc => hne ⟨hc.1.symm, hc.2.symm⟩
  refine ⟨?_, ?_, ?_⟩
  · intro hatk
    have hk : u.kind.attack d.kind = .Win :=
      Option.some.inj (by rw [← GeneralUnit.attack]; exact hatk)
    refine ⟨_, make_move_combat_win rules g mv u d fx fy tx ty
      hw hv hf1 hf2 hfb hu how ht1 ht2 htb hd hdo hk, ?_, ?_, ?_⟩
    · show (((g.field.set ty tx (some u)).set fy fx none).set ty tx
        (some { u with visible := true })) ty tx = some { u with visible := true }
      rw [Field.set_self]
    · show (((g.field.set ty tx (some u)).set fy fx none).set ty tx
        (some { u with visible := true })) fy fx = none
      rw [Field.set_ne _ _ _ _ _ _ hne', Field.set_self]
    · intro y x h1 h2
      show (((g.field.set ty tx (some u)).set fy fx none).set ty tx
        (some { u with visible := true })) y x = g.field y x
      rw [Field.set_ne _ _ _ _ _ _ h1, Field.set_ne _ _ _ _ _ _ h2,
        Field.set_ne _ _ _ _ _ _ h1]
  · intro hatk
    have hk : u.kind.attack d.kind = .Lose :=
      Option.some.inj (by rw [← GeneralUnit.attack]; exact hatk)
    refine ⟨_, make_move_combat_lose rules g mv u d fx fy tx ty
      hw hv hf1 hf2 hfb hu how ht1 ht2 htb hd hdo hk, ?_, ?_, ?_⟩
    · show ((g.field.set fy fx none).set ty tx
        (some { d with visible := true })) fy fx = none
      rw [Field.set_ne _ _ _ _ _ _ hne', Field.set_self]
    · show ((g.field.set fy fx none).set ty tx
        (some { d with visible := true })) ty tx = some { d with visible := true }
      rw [Field.set_self]
    · intro y x h1 h2
      show ((g.field.set fy fx none).set ty tx
        (some { d with visible := true })) y x = g.field y x
      rw [Field.set_ne _ _ _ _ _ _ h1, Field.set_ne _ _ _ _ _ _ h2]
  · intro hatk
    have hk : u.kind.attack d.kind = .Draw :=
      Option.some.inj (by rw [← GeneralUnit.attack]; exact hatk)
    refine ⟨_, make_move_combat_draw rules g mv u d fx fy tx ty
      hw hv hf1 hf2 hfb hu how ht1 ht2 htb hd hdo hk, ?_, ?_, ?_⟩
    · show ((g.field.set fy fx (some { u with visible := true })).set ty tx
        (some { d with visible := true })) fy fx = some { u with visible := true }
      rw [Field.set_ne _ _ _ _ _ _ hne', Field.set_self]
    · show ((g.field.set fy fx (some { u with visible := true })).set ty tx
        (some { d with visible := true })) ty tx = some { d with visible := true }
      rw [Field.set_self]
    · intro y x h1 h2
      show ((g.field.set fy fx (some { u with visible := true })).set ty tx
        (some { d with visible := true })) y x = g.field y x
      rw [Field.set_ne _ _ _ _ _ _ h1, Field.set_ne _ _ _ _ _ _ h2]

/-- C5 witness: the red rock of `gCombat` attacks the blue scissors and
wins; the mutated board matches the Win clause. -/
theorem combat_board_mutation_witness :
    ∃ g', Game.make_move rulesW gCombat mOrigin = some (g', .ok (some .Win)) ∧
      g'.field 1 0 = some { uRedRock with visible := true } ∧
      g'.field 0 0 = none ∧
      (∀ y x, ¬(y = 1 ∧ x = 0) → ¬(y = 0 ∧ x = 0) →
        g'.field y x = gCombat.field y x) :=
  (combat_board_mutation rulesW gCombat mOrigin uRedRock uBlueScissors 0 0 0 1
    rfl rfl rfl rfl (by decide) rfl rfl rfl rfl (by decide) rfl
    (by decide)).1 rfl

/-- C8: `Game::new` starts with turn counter 1, Red to move, no winner;
rows `0..ROWS` hold Red units, the mirrored last `ROWS` rows
(`HEIGHT-ROWS..HEIGHT`) hold Blue units, and every other cell in bounds is
empty. -/
theorem game_new_initial (draw : Nat → RPS) :
    (Game.new draw).turns = 1 ∧
    (Game.new draw).current_turn = .Red ∧
    (Game.new draw).winner = none ∧
    (∀ y x, y < ROWS → x < WIDTH →
      ∃ u, (Game.new draw).field y x = some u ∧ u.owner = .Red) ∧
    (∀ y x, HEIGHT - ROWS ≤ y → y < HEIGHT → x < WIDTH →
      ∃ u, (Game.new draw).field y x = some u ∧ u.owner = .Blue) ∧
    (∀ y x, ROWS ≤ y → y < HEIGHT - ROWS → x < WIDTH →
      (Game.new draw).field y x = none) := by
  refine ⟨rfl, rfl, rfl, ?_, ?_, ?_⟩
  · intro y x hy _
    have hy2 : y < 2 := hy
    interval_cases y
    · exact ⟨Player.Red.random_unit (draw 0), rfl, rfl⟩
    · exact ⟨Player.Red.random_unit (draw 2), rfl, rfl⟩
  · intro y x hy1 hy2 _
    have hy1' : 6 ≤ y := hy1
    have hy2' : y < 8 := hy2
    interval_cases y
    · exact ⟨Player.Blue.random_unit (draw 3), rfl, rfl⟩
    · exact ⟨Player.Blue.random_unit (draw 1), rfl, rfl⟩
  · intro y x hy1 hy2 _
    have hy1' : 2 ≤ y := hy1
    have hy2' : y < 6 := hy2
    interval_cases y <;> rfl

/-- C8 witness: the constructed game at a concrete draw stream, sampled at
one cell of each region. -/
theorem game_new_initial_witness :
    (Game.new (fun _ => RPS.Rock)).turns = 1 ∧
    (Game.new (fun _ => RPS.Rock)).current_turn = .Red ∧
    (Game.new (fun _ => RPS.Rock)).winner = none ∧
    (∃ u, (Game.new (fun _ => RPS.Rock)).field 0 0 = some u ∧ u.owner = .Red) ∧
    (∃ u, (Game.new (fun _ => RPS.Rock)).field 7 0 = some u ∧ u.owner = .Blue) ∧
    (Game.new (fun _ => RPS.Rock)).field 3 0 = none :=
  ⟨(game_new_initial (fun _ => RPS.Rock)).1,
   (game_new_initial (fun _ => RPS.Rock)).2.1,
   (game_new_initial (fun _ => RPS.Rock)).2.2.1,
   (game_new_initial (fun _ => RPS.Rock)).2.2.2.1 0 0 (by decide) (by decide),
   (game_new_initial (fun _ => RPS.Rock)).2.2.2.2.1 7 0 (by decide) (by decide)
     (by decide),
   (game_new_initial (fun _ => RPS.Rock)).2.2.2.2.2 3 0 (by decide) (by decide)
     (by decide)⟩

/-- C10 (implicit): each seeded row of `Game::new` is one random unit copied
across the whole row — every cell of a seeded row is equal, so in
particular every unit in one seeded row has the same RPS kind. -/
theorem game_new_row_uniform (draw : Nat → RPS) (y : Nat)
    (hy : y < ROWS ∨ (HEIGHT - ROWS ≤ y ∧ y < HEIGHT)) :
    ∀ x1 x2, x1 < WIDTH → x2 < WIDTH →
      (Game.new draw).field y x1 = (Game.new draw).field y x2 ∧
      (∀ u1 u2, (Game.new draw).field y x1 = some u1 →
        (Game.new draw).field y x2 = some u2 → u1.kind = u2.kind) := by
  intro x1 x2 _ _
  refine ⟨rfl, ?_⟩
  intro u1 u2 h1 h2
  have h3 : some u1 = some u2 := (Eq.symm h1).trans h2
  rw [Option.some.inj h3]

/-- C10 witness: at a concrete draw stream, row 0 at columns 0 and 1. -/
theorem game_new_row_uniform_witness :
    (Game.new (fun _ => RPS.Rock)).field 0 0 = (Game.new (fun _ => RPS.Rock)).field 0 1 ∧
    (∀ u1 u2, (Game.new (fun _ => RPS.Rock)).field 0 0 = some u1 →
      (Game.new (fun _ => RPS.Rock)).field 0 1 = some u2 → u1.kind = u2.kind) :=
  game_new_row_uniform (fun _ => RPS.Rock) 0 (Or.inl (by decide)) 0 1
    (by decide) (by decide)

end RPSGame
